import Mathlib

/-!
Verification of the offline-first local data and synchronization core of the
Expo33 attendance application, together with the two UI screens
(`app/(admin)/attendances/index.tsx` and `app/(admin)/attendances/form.tsx`).

The Record Store, Change Queue and Sync Manager (`@/lib/attendanceDb`,
`@/lib/syncQueueDb`, `@/lib/syncManager`) are not part of the visible
sources; their operations are modelled here from the specification's
contracts.  The form-screen computations (`fetchStudentsAndAttendance`,
`handleSaveAttendance`) are translated directly from `form.tsx`.
-/

namespace Expo33

/-- Pending-mutation marker, the `operation_type` values of the spec. -/
inductive OpType
  | create
  | update
  | delete
deriving DecidableEq, Repr

/-- Student attendance status, `'present' | 'absent' | 'excused'` in `form.tsx`. -/
inductive AttendanceStatus
  | present
  | absent
  | excused
deriving DecidableEq, Repr

/-- An attendance record as described by the spec's data model: UUID identity,
date, office/level references, denormalized display names, and a nullable
`operation_type` marker (`none` means fully synchronized). -/
structure AttendanceRecord where
  uuid : String
  date : String
  office_uuid : String
  level_uuid : String
  office_name : String
  level_name : String
  operation_type : Option OpType
deriving DecidableEq, Repr

/-- A per-student status line, identified by (record uuid, student uuid). -/
structure StudentAttendanceEntry where
  record_uuid : String
  student_uuid : String
  status : AttendanceStatus
deriving DecidableEq, Repr

/-- One element of the `studentStatuses` argument of `saveAttendance`,
as built in `handleSaveAttendance` (`{ studentUuid, status }`). -/
structure StudentStatusInput where
  studentUuid : String
  status : AttendanceStatus
deriving DecidableEq, Repr

/-- A Change Queue entry: sequence-number identity, entity table, entity id,
operation, payload snapshot, creation timestamp, attempt count and the
poisoned flag of the retry-ceiling mechanism. -/
structure ChangeQueueEntry where
  seq : Nat
  table : String
  entityId : String
  op : OpType
  payloadRecord : AttendanceRecord
  payloadEntries : List StudentAttendanceEntry
  createdAt : Nat
  attempts : Nat
  poisoned : Bool
deriving DecidableEq, Repr

/-- Reference entity Office (read-mostly cache). -/
structure Office where
  uuid : String
  name : String
deriving DecidableEq, Repr

/-- Reference entity Level (read-mostly cache). -/
structure Level where
  uuid : String
  name : String
deriving DecidableEq, Repr

/-- The durable local state: Record Store rows, their student entries, the
Change Queue, the next sequence number, a queue capacity (storage exhaustion
boundary for `StorageFullError`), and the reference caches used to resolve
display names. -/
structure Store where
  records : List AttendanceRecord
  studentEntries : List StudentAttendanceEntry
  queue : List ChangeQueueEntry
  nextSeq : Nat
  capacity : Nat
  offices : List Office
  levels : List Level
deriving DecidableEq, Repr

/-- Errors surfaced by the Record Store write path. -/
inductive SaveError
  | duplicateRecord
  | notFound
  | storageFull
deriving DecidableEq, Repr

/-- The entity table used for attendance records. -/
def attendanceTable : String := "attendance_records"

/-- Modelled from the spec: the Change Queue's `append(entry)` of
`@/lib/syncQueueDb` (not in the visible sources) — O(1) durable append that
fails only on storage exhaustion with `StorageFullError`. -/
def appendEntry (e : ChangeQueueEntry) (q : List ChangeQueueEntry)
    (capacity : Nat) : Option (List ChangeQueueEntry) :=
  if q.length < capacity then some (q ++ [e]) else none

/-- Resolve a denormalized office display name from the reference cache. -/
def officeNameOf (s : Store) (officeId : String) : String :=
  ((s.offices.find? (fun o => o.uuid = officeId)).map Office.name).getD ""

/-- Resolve a denormalized level display name from the reference cache. -/
def levelNameOf (s : Store) (levelId : String) : String :=
  ((s.levels.find? (fun l => l.uuid = levelId)).map Level.name).getD ""

/-- Build the fresh entry set for a record (one entry per given student). -/
def mkEntries (rid : String) (studentStatuses : List StudentStatusInput) :
    List StudentAttendanceEntry :=
  studentStatuses.map (fun p =>
    { record_uuid := rid, student_uuid := p.studentUuid, status := p.status })

/-- Build the ChangeQueueEntry snapshot appended by a local mutation. -/
def mkQueueEntry (s : Store) (op : OpType) (r : AttendanceRecord)
    (es : List StudentAttendanceEntry) : ChangeQueueEntry :=
  { seq := s.nextSeq, table := attendanceTable, entityId := r.uuid, op := op,
    payloadRecord := r, payloadEntries := es, createdAt := s.nextSeq,
    attempts := 0, poisoned := false }

/-- Modelled from the spec: `saveAttendance(date, officeId, levelId,
studentStatuses[], existingId?)` of `@/lib/attendanceDb` (not in the visible
sources).  Without `existingId` it creates a new record after checking the
(office, level, date) uniqueness invariant, failing with `DuplicateRecordError`
and performing no write on violation; with `existingId` it fully overwrites the
entry set and marks the record `update` unless it is still an unsynced
`create`.  Every successful call appends one ChangeQueueEntry; the record
write and the append form one atomic unit, rolled back together when the
append hits `StorageFullError`.  The freshly generated UUID is passed in as
`newUuid` (nondeterministic generation made explicit). -/
def saveAttendance (newUuid date officeId levelId : String)
    (studentStatuses : List StudentStatusInput)
    (existingId : Option String) (s : Store) :
    Except SaveError String × Store :=
  match existingId with
  | none =>
    if s.records.any (fun r =>
        r.office_uuid = officeId && r.level_uuid = levelId && r.date = date) then
      (Except.error SaveError.duplicateRecord, s)
    else
      let r : AttendanceRecord :=
        { uuid := newUuid, date := date,
          office_uuid := officeId, level_uuid := levelId,
          office_name := officeNameOf s officeId,
          level_name := levelNameOf s levelId,
          operation_type := some OpType.create }
      let es := mkEntries newUuid studentStatuses
      match appendEntry (mkQueueEntry s OpType.create r es) s.queue s.capacity with
      | none => (Except.error SaveError.storageFull, s)
      | some q =>
        (Except.ok newUuid,
          { s with records := r :: s.records,
                   studentEntries := s.studentEntries ++ es,
                   queue := q, nextSeq := s.nextSeq + 1 })
  | some rid =>
    match s.records.find? (fun r => r.uuid = rid) with
    | none => (Except.error SaveError.notFound, s)
    | some r0 =>
      let newOp : OpType :=
        if r0.operation_type = some OpType.create then OpType.create
        else OpType.update
      let r : AttendanceRecord := { r0 with operation_type := some newOp }
      let es := mkEntries rid studentStatuses
      match appendEntry (mkQueueEntry s newOp r es) s.queue s.capacity with
      | none => (Except.error SaveError.storageFull, s)
      | some q =>
        (Except.ok rid,
          { s with
              records := s.records.map (fun x => if x.uuid = rid then r else x),
              studentEntries :=
                (s.studentEntries.filter (fun x => x.record_uuid ≠ rid)) ++ es,
              queue := q, nextSeq := s.nextSeq + 1 })

/-- Insert a record into a list kept in most-recent-first date order. -/
def insertByDateDesc (r : AttendanceRecord) :
    List AttendanceRecord → List AttendanceRecord
  | [] => [r]
  | x :: xs =>
    if x.date ≤ r.date then r :: x :: xs else x :: insertByDateDesc r xs

/-- Sort records most-recent-first by date (insertion sort). -/
def sortByDateDesc : List AttendanceRecord → List AttendanceRecord
  | [] => []
  | x :: xs => insertByDateDesc x (sortByDateDesc xs)

/-- Modelled from the spec: `getAllAttendanceRecords()` of `@/lib/attendanceDb`
(not in the visible sources) — all records most-recent-first, with soft-deleted
records (pending `delete`) excluded immediately. -/
def getAllAttendanceRecords (s : Store) : List AttendanceRecord :=
  sortByDateDesc (s.records.filter (fun r => r.operation_type ≠ some OpType.delete))

/-- Modelled from the spec: `getAttendanceRecordByUuid(id)` of
`@/lib/attendanceDb` (not in the visible sources). -/
def getAttendanceRecordByUuid (id : String) (s : Store) :
    Option AttendanceRecord :=
  s.records.find? (fun r => r.uuid = id)

/-- Modelled from the spec: `getStudentAttendanceForRecord(id)` of
`@/lib/attendanceDb` (not in the visible sources). -/
def getStudentAttendanceForRecord (id : String) (s : Store) :
    List StudentAttendanceEntry :=
  s.studentEntries.filter (fun x => x.record_uuid = id)

/-- Errors surfaced by the delete path. -/
inductive DeleteError
  | storageFull
deriving DecidableEq, Repr

/-- Modelled from the spec: `deleteAttendanceRecord(id)` of
`@/lib/attendanceDb` (not in the visible sources).  A record still carrying an
unacknowledged `create` is physically removed together with its pending queue
entries and student entries — no delete entry is appended and no network
interaction occurs.  Any other record is soft-deleted (`operation_type :=
delete`) and a delete ChangeQueueEntry is appended, the pair forming one
atomic unit rolled back on `StorageFullError`. -/
def deleteAttendanceRecord (id : String) (s : Store) :
    Except DeleteError Unit × Store :=
  match s.records.find? (fun r => r.uuid = id) with
  | none => (Except.ok (), s)
  | some r0 =>
    if r0.operation_type = some OpType.create then
      (Except.ok (),
        { s with
            records := s.records.filter (fun r => r.uuid ≠ id),
            studentEntries := s.studentEntries.filter (fun x => x.record_uuid ≠ id),
            queue := s.queue.filter (fun e =>
              ¬(e.table = attendanceTable ∧ e.entityId = id)) })
    else
      let r : AttendanceRecord := { r0 with operation_type := some OpType.delete }
      match appendEntry (mkQueueEntry s OpType.delete r []) s.queue s.capacity with
      | none => (Except.error DeleteError.storageFull, s)
      | some q =>
        (Except.ok (),
          { s with
              records := s.records.map (fun x => if x.uuid = id then r else x),
              queue := q, nextSeq := s.nextSeq + 1 })

/-- Modelled from the spec: `getUnsyncedChanges(table)` of `@/lib/syncQueueDb`
(not in the visible sources) — the queued entries for a table, oldest first
(the queue appends at the end, so list order is creation order). -/
def getUnsyncedChanges (table : String) (s : Store) : List ChangeQueueEntry :=
  s.queue.filter (fun e => e.table = table)

/-- Modelled from the spec: `acknowledge(entryId)` of `@/lib/syncQueueDb`
(not in the visible sources) — removes exactly that entry; acknowledging a
missing entry is a no-op, not an error. -/
def acknowledge (entryId : Nat) (s : Store) : Store :=
  { s with queue := s.queue.filter (fun e => e.seq ≠ entryId) }

/-- The default retry ceiling after which an entry is poisoned. -/
def retryCeiling : Nat := 5

/-- Modelled from the spec: `incrementAttempt(entryId)` of `@/lib/syncQueueDb`
(not in the visible sources) — bumps the attempt counter, poisoning the entry
once the ceiling is reached. -/
def incrementAttempt (entryId : Nat) (s : Store) : Store :=
  { s with queue := s.queue.map (fun e =>
      if e.seq = entryId then
        { e with attempts := e.attempts + 1,
                 poisoned := decide (retryCeiling ≤ e.attempts + 1) || e.poisoned }
      else e) }

/-- The server's view of a record, returned on a conflict rejection
(last-writer-wins by server timestamp: the server's version supersedes). -/
structure ServerRecord where
  record : AttendanceRecord
  entries : List StudentAttendanceEntry
deriving DecidableEq, Repr

/-- Outcome of pushing one queue entry to the remote system of record. -/
inductive PushResult
  | ack
  | conflict (server : ServerRecord)
  | transient
deriving DecidableEq, Repr

/-- Modelled from the spec: the acknowledgment step of the Sync Manager
(`@/lib/syncManager`, not in the visible sources) — remove the acknowledged
entry; for `delete` physically purge the soft-deleted record and its entries,
for `create`/`update` clear the record's `operation_type`. -/
def applyAck (e : ChangeQueueEntry) (s : Store) : Store :=
  let s1 := acknowledge e.seq s
  match e.op with
  | OpType.delete =>
    { s1 with
        records := s1.records.filter (fun r => r.uuid ≠ e.entityId),
        studentEntries := s1.studentEntries.filter (fun x => x.record_uuid ≠ e.entityId) }
  | _ =>
    { s1 with records := s1.records.map (fun r =>
        if r.uuid = e.entityId then { r with operation_type := none } else r) }

/-- The server's version of a record as stored locally after a
last-writer-wins overwrite: fully synchronized, no pending marker. -/
def serverVersion (srv : ServerRecord) : AttendanceRecord :=
  { srv.record with operation_type := none }

/-- Modelled from the spec: the conflict-resolution step of the Sync Manager
(`@/lib/syncManager`, not in the visible sources) — discard the local queue
entry and overwrite local state with the server's version. -/
def applyConflict (e : ChangeQueueEntry) (srv : ServerRecord) (s : Store) : Store :=
  let s1 := acknowledge e.seq s
  { s1 with
      records :=
        serverVersion srv :: s1.records.filter (fun r => r.uuid ≠ srv.record.uuid),
      studentEntries :=
        srv.entries ++ s1.studentEntries.filter (fun x => x.record_uuid ≠ srv.record.uuid) }

/-- The discard notice surfaced when a conflict drops a local change. -/
def discardNotice (e : ChangeQueueEntry) : String :=
  "conflict: local change discarded for " ++ e.entityId

/-- The accumulated result of one sync run over the queued entries:
resulting store, message lines, overall success, and the sequence numbers of
the entries processed, in processing order. -/
structure RunState where
  store : Store
  notices : List String
  success : Bool
  processedSeqs : List Nat
deriving Repr

/-- Modelled from the spec: steps 2–4 of the Sync Manager algorithm
(`@/lib/syncManager`, not in the visible sources) — push each queued entry
oldest first; on acknowledgment apply it, on conflict apply last-writer-wins
and surface a discard notice, on a transient failure increment the attempt
count, stop processing (preserve ordering; do not skip ahead) and report
partial failure. -/
def processEntries (push : ChangeQueueEntry → PushResult) :
    List ChangeQueueEntry → Store → RunState
  | [], s => { store := s, notices := [], success := true, processedSeqs := [] }
  | e :: rest, s =>
    match push e with
    | PushResult.ack =>
      let out := processEntries push rest (applyAck e s)
      { out with processedSeqs := e.seq :: out.processedSeqs }
    | PushResult.conflict srv =>
      let out := processEntries push rest (applyConflict e srv s)
      { out with notices := discardNotice e :: out.notices,
                 processedSeqs := e.seq :: out.processedSeqs }
    | PushResult.transient =>
      { store := incrementAttempt e.seq s,
        notices := ["transient failure: entry left queued"],
        success := false, processedSeqs := [] }

/-- Outcome reported by one `syncEntity` call.  The message is modelled as a
list of lines. -/
structure SyncOutcome where
  success : Bool
  message : List String
deriving DecidableEq, Repr

/-- The Sync Manager's own state: the entity types currently `Running`. -/
structure SyncManager where
  running : List String
deriving DecidableEq, Repr

/-- The entity table backing an entity type. -/
def tableForEntity (entityType : String) : String :=
  if entityType = "attendance" then attendanceTable else entityType

/-- The unpoisoned queued entries a sync run reads, oldest first. -/
def entriesForRun (entityType : String) (s : Store) : List ChangeQueueEntry :=
  (getUnsyncedChanges (tableForEntity entityType) s).filter (fun e => !e.poisoned)

/-- Modelled from the spec: `syncEntity(entityType)` of `@/lib/syncManager`
(not in the visible sources).  At most one `Running` instance per entity type:
a call while `Running` returns immediately with `{success: false, message:
"sync already in progress"}` and changes nothing; otherwise the run drains the
unpoisoned queue entries oldest first and reports one outcome.  The remote
system is supplied as the `push` oracle. -/
def syncEntity (push : ChangeQueueEntry → PushResult) (mgr : SyncManager)
    (entityType : String) (s : Store) : SyncOutcome × SyncManager × Store :=
  if entityType ∈ mgr.running then
    ({ success := false, message := ["sync already in progress"] }, mgr, s)
  else
    let out := processEntries push (entriesForRun entityType s) s
    ({ success := out.success, message := out.notices }, mgr, out.store)

/-- A student as listed by `getStudentsByOfficeAndLevel` (form.tsx). -/
structure Student where
  uuid : String
  name : String
  office_name : String
  level_name : String
deriving DecidableEq, Repr

/-- A student together with the attendance status shown in the form
(`StudentWithAttendance` in form.tsx). -/
structure StudentWithAttendance where
  student : Student
  attendanceStatus : AttendanceStatus
deriving DecidableEq, Repr

/-- The `studentAttendanceStatus` map of `fetchStudentsAndAttendance`
(form.tsx lines 100–107): built by a forEach over the stored statuses, a
later assignment overwriting an earlier one. -/
def buildStatusMap (statuses : List StudentAttendanceEntry) :
    String → Option AttendanceStatus :=
  statuses.foldl
    (fun m e => fun k => if k = e.student_uuid then some e.status else m k)
    (fun _ => none)

/-- The roster computation of `fetchStudentsAndAttendance` (form.tsx lines
94–127): stored statuses are read only in edit mode, and each fetched student
gets their stored status, falling back to `'absent'`
(`studentAttendanceStatus[student.uuid] || 'absent'`, line 111). -/
def studentsWithAttendance (isEditMode : Bool)
    (statuses : List StudentAttendanceEntry) (fetchedStudents : List Student) :
    List StudentWithAttendance :=
  let m := if isEditMode then buildStatusMap statuses else fun _ => none
  fetchedStudents.map (fun st =>
    { student := st, attendanceStatus := (m st.uuid).getD AttendanceStatus.absent })

/-- The user-visible outcome of `handleSaveAttendance` (form.tsx): one of the
two precondition alerts, a successful save, the duplicate-record alert, or
the generic failure alert. -/
inductive SaveOutcomeUI
  | alertMissingSelection
  | alertNoStudents
  | savedOk
  | alertDuplicate
  | alertSaveFailed
deriving DecidableEq, Repr

/-- JavaScript truthiness of a nullable string (`!selectedOffice` in
form.tsx is true for `null` and for the empty string). -/
def jsTruthyStr : Option String → Bool
  | none => false
  | some s => s ≠ ""

/-- `handleSaveAttendance` of form.tsx (lines 137–185): alert and return when
office, level or date is unselected or the student list is empty; otherwise
build `studentsStatus` and call `saveAttendance`, passing `recordUuid` only in
edit mode; after a successful save, trigger an automatic sync when connected;
map a `DuplicateRecordError` to the dedicated alert.  The fresh UUID consumed
by a create and the remote `push` oracle are explicit parameters. -/
def handleSaveAttendance (push : ChangeQueueEntry → PushResult)
    (mgr : SyncManager) (isConnected : Bool) (newUuid : String)
    (selectedOffice selectedLevel : Option String) (selectedDate : String)
    (students : List StudentWithAttendance) (isEditMode : Bool)
    (recordUuid : Option String) (s : Store) : SaveOutcomeUI × Store :=
  if !jsTruthyStr selectedOffice || !jsTruthyStr selectedLevel || selectedDate = "" then
    (SaveOutcomeUI.alertMissingSelection, s)
  else if students.length = 0 then
    (SaveOutcomeUI.alertNoStudents, s)
  else
    let studentsStatus : List StudentStatusInput := students.map (fun st =>
      { studentUuid := st.student.uuid, status := st.attendanceStatus })
    let res := saveAttendance newUuid selectedDate (selectedOffice.getD "")
      (selectedLevel.getD "") studentsStatus
      (if isEditMode then recordUuid else none) s
    match res.1 with
    | Except.ok _ =>
      let after :=
        if isConnected then (syncEntity push mgr "attendance" res.2).2.2 else res.2
      (SaveOutcomeUI.savedOk, after)
    | Except.error SaveError.duplicateRecord => (SaveOutcomeUI.alertDuplicate, res.2)
    | Except.error _ => (SaveOutcomeUI.alertSaveFailed, res.2)

/-- Two records agree on the (office, level, date) triple. -/
def sameTriple (a b : AttendanceRecord) : Prop :=
  a.office_uuid = b.office_uuid ∧ a.level_uuid = b.level_uuid ∧ a.date = b.date

instance (a b : AttendanceRecord) : Decidable (sameTriple a b) :=
  inferInstanceAs (Decidable (_ ∧ _ ∧ _))

/-- The uniqueness invariant: at most one record per (office, level, date). -/
def uniqueTriple (s : Store) : Prop :=
  s.records.Pairwise (fun a b => ¬ sameTriple a b)

/-- Records carry pairwise distinct UUIDs (UUID identity, never reassigned). -/
def uniqueUuid (s : Store) : Prop :=
  s.records.Pairwise (fun a b => a.uuid ≠ b.uuid)

/-- Record Store and Change Queue agree, stated on the two lists: every
record with a pending `operation_type` has a queued attendance entry for its
uuid, and every queued attendance entry points at a record with a pending
`operation_type`. -/
def consistentLists (records : List AttendanceRecord)
    (queue : List ChangeQueueEntry) : Prop :=
  (∀ r ∈ records, r.operation_type ≠ none →
    ∃ e ∈ queue, e.table = attendanceTable ∧ e.entityId = r.uuid)
  ∧ (∀ e ∈ queue, e.table = attendanceTable →
    ∃ r ∈ records, r.uuid = e.entityId ∧ r.operation_type ≠ none)

/-- The records-vs-queue agreement, as a store invariant. -/
def storeQueueConsistent (s : Store) : Prop :=
  consistentLists s.records s.queue

instance (s : Store) : Decidable (uniqueTriple s) :=
  inferInstanceAs
    (Decidable (s.records.Pairwise (fun a b => ¬ sameTriple a b)))

instance (s : Store) : Decidable (uniqueUuid s) :=
  inferInstanceAs
    (Decidable (s.records.Pairwise
      (fun (a b : AttendanceRecord) => a.uuid ≠ b.uuid)))

instance (records : List AttendanceRecord) (queue : List ChangeQueueEntry) :
    Decidable (consistentLists records queue) :=
  inferInstanceAs
    (Decidable ((∀ r ∈ records, r.operation_type ≠ none →
        ∃ e ∈ queue, e.table = attendanceTable ∧ e.entityId = r.uuid)
      ∧ (∀ e ∈ queue, e.table = attendanceTable →
        ∃ r ∈ records, r.uuid = e.entityId ∧ r.operation_type ≠ none)))

instance (s : Store) : Decidable (storeQueueConsistent s) :=
  inferInstanceAs (Decidable (consistentLists s.records s.queue))

lemma appendEntry_some {e : ChangeQueueEntry} {q q' : List ChangeQueueEntry}
    {c : Nat} (h : appendEntry e q c = some q') : q' = q ++ [e] := by
  unfold appendEntry at h
  split at h
  · exact (Option.some.injEq _ _ ▸ h).symm
  · exact absurd h (by simp)

lemma appendEntry_of_lt {e : ChangeQueueEntry} {q : List ChangeQueueEntry}
    {c : Nat} (h : q.length < c) : appendEntry e q c = some (q ++ [e]) := by
  unfold appendEntry
  exact if_pos h

lemma eq_of_pairwise_key {α β : Type} (key : α → β) {l : List α}
    (hl : l.Pairwise (fun a b => key a ≠ key b)) {a b : α}
    (ha : a ∈ l) (hb : b ∈ l) (h : key a = key b) : a = b := by
  induction l with
  | nil => cases ha
  | cons x xs ih =>
    rcases List.pairwise_cons.mp hl with ⟨hx, hxs⟩
    rcases List.mem_cons.mp ha with rfl | ha'
    · rcases List.mem_cons.mp hb with rfl | hb'
      · rfl
      · exact absurd h (hx b hb')
    · rcases List.mem_cons.mp hb with rfl | hb'
      · exact absurd h.symm (hx a ha')
      · exact ih hxs ha' hb'

lemma mem_insertByDateDesc {a r : AttendanceRecord} {l : List AttendanceRecord} :
    a ∈ insertByDateDesc r l ↔ a = r ∨ a ∈ l := by
  induction l with
  | nil => simp [insertByDateDesc]
  | cons x xs ih =>
    unfold insertByDateDesc
    split
    · simp
    · simp only [List.mem_cons, ih]
      tauto

lemma mem_sortByDateDesc {a : AttendanceRecord} {l : List AttendanceRecord} :
    a ∈ sortByDateDesc l ↔ a ∈ l := by
  induction l with
  | nil => simp [sortByDateDesc]
  | cons x xs ih => simp [sortByDateDesc, mem_insertByDateDesc, ih]

/-- A concrete fully-synchronized record used by the witness theorems. -/
def demoRecord : AttendanceRecord :=
  { uuid := "r1", date := "2024-03-01", office_uuid := "o1", level_uuid := "l1",
    office_name := "Office One", level_name := "Level One",
    operation_type := none }

/-- A concrete queue entry (seq 7) used by the witness theorems. -/
def demoEntry : ChangeQueueEntry :=
  { seq := 7, table := attendanceTable, entityId := "r1", op := OpType.update,
    payloadRecord := { demoRecord with operation_type := some OpType.update },
    payloadEntries := [], createdAt := 7, attempts := 0, poisoned := false }

/-- A concrete store holding one synced record and an empty queue. -/
def demoStore : Store :=
  { records := [demoRecord], studentEntries := [], queue := [], nextSeq := 0,
    capacity := 10, offices := [{ uuid := "o1", name := "Office One" }],
    levels := [{ uuid := "l1", name := "Level One" }] }

/-- A concrete store whose queue holds `demoEntry` and whose record is the
matching pending update. -/
def demoStoreQueued : Store :=
  { records := [{ demoRecord with operation_type := some OpType.update }],
    studentEntries := [], queue := [demoEntry], nextSeq := 8, capacity := 10,
    offices := [{ uuid := "o1", name := "Office One" }],
    levels := [{ uuid := "l1", name := "Level One" }] }

/-- Claim C8: for every queue state and entryId, `acknowledge(entryId)` is
idempotent — acknowledging twice equals acknowledging once — and
acknowledging an entryId not present in the queue is a no-op that raises no
error. -/
theorem acknowledge_idempotent_noop :
    ∀ (s : Store) (entryId : Nat),
      acknowledge entryId (acknowledge entryId s) = acknowledge entryId s
      ∧ ((∀ e ∈ s.queue, e.seq ≠ entryId) → acknowledge entryId s = s) := by
  intro s entryId
  constructor
  · cases s
    simp only [acknowledge, List.filter_filter]
    congr 1
    apply List.filter_congr
    intro e _
    simp
  · intro h
    cases s
    simp only [acknowledge, Store.mk.injEq, and_true, true_and]
    apply List.filter_eq_self.mpr
    intro e he
    simpa using h e he

/-- Witness for C8 at the concrete queue of `demoStoreQueued` (one entry
with seq 7), acknowledging the missing entryId 5. -/
theorem acknowledge_idempotent_noop_witness :
    acknowledge 5 (acknowledge 5 demoStoreQueued) = acknowledge 5 demoStoreQueued
    ∧ acknowledge 5 demoStoreQueued = demoStoreQueued := by
  refine ⟨(acknowledge_idempotent_noop demoStoreQueued 5).1,
    (acknowledge_idempotent_noop demoStoreQueued 5).2 ?_⟩
  decide

/-- Claim C4: a `syncEntity(entityType)` call made while a run for that
entity type is already `Running` returns immediately with
`{success: false, message: "sync already in progress"}` and mutates neither
the Sync Manager state, the Change Queue, nor the Record Store. -/
theorem syncEntity_at_most_one_running :
    ∀ (push : ChangeQueueEntry → PushResult) (mgr : SyncManager)
      (entityType : String) (s : Store),
      entityType ∈ mgr.running →
      syncEntity push mgr entityType s =
        ({ success := false, message := ["sync already in progress"] }, mgr, s) := by
  intro push mgr entityType s h
  simp [syncEntity, h]

/-- Witness for C4: a second `syncEntity("attendance")` while one is Running
rejects without touching `demoStore`. -/
theorem syncEntity_at_most_one_running_witness :
    syncEntity (fun _ => PushResult.ack) { running := ["attendance"] }
      "attendance" demoStore =
    ({ success := false, message := ["sync already in progress"] },
      { running := ["attendance"] }, demoStore) :=
  syncEntity_at_most_one_running (fun _ => PushResult.ack)
    { running := ["attendance"] } "attendance" demoStore (by decide)

lemma find?_uuid_mem {l : List AttendanceRecord} {rid : String}
    {r0 : AttendanceRecord} (h : l.find? (fun r => r.uuid = rid) = some r0) :
    r0 ∈ l ∧ r0.uuid = rid := by
  refine ⟨List.mem_of_find?_eq_some h, ?_⟩
  have := List.find?_some h
  simpa using this

/-- Claim C1: a `saveAttendance` call with no `existingId` against a store
already holding a record with the same (office, level, date) triple fails
with `DuplicateRecordError` and returns the store unchanged (no Record Store
write, no Change Queue append); consequently every `saveAttendance` call —
create or update — preserves the at-most-one-record-per-triple invariant
(UUID identity being pairwise distinct). -/
theorem saveAttendance_duplicate_guard :
    (∀ (s : Store) (u d o l : String) (sts : List StudentStatusInput),
        (∃ r ∈ s.records, r.office_uuid = o ∧ r.level_uuid = l ∧ r.date = d) →
        saveAttendance u d o l sts none s =
          (Except.error SaveError.duplicateRecord, s))
    ∧ (∀ (s : Store) (u d o l : String) (sts : List StudentStatusInput)
        (eid : Option String),
        uniqueUuid s → uniqueTriple s →
        uniqueTriple (saveAttendance u d o l sts eid s).2) := by
  constructor
  · rintro s u d o l sts ⟨r, hr, h1, h2, h3⟩
    have hany : (s.records.any fun r =>
        r.office_uuid = o && r.level_uuid = l && r.date = d) = true := by
      rw [List.any_eq_true]
      exact ⟨r, hr, by simp [h1, h2, h3]⟩
    simp [saveAttendance, hany]
  · intro s u d o l sts eid hU hT
    cases eid with
    | none =>
      cases hany : (s.records.any fun r =>
          r.office_uuid = o && r.level_uuid = l && r.date = d) with
      | true => simpa [saveAttendance, hany] using hT
      | false =>
        simp only [saveAttendance, hany, Bool.false_eq_true, if_false]
        split
        · simpa using hT
        · simp only []
          unfold uniqueTriple at hT ⊢
          simp only [List.pairwise_cons]
          refine ⟨?_, hT⟩
          intro x hx hsame
          rcases hsame with ⟨e1, e2, e3⟩
          have hpx : x.office_uuid = o ∧ x.level_uuid = l ∧ x.date = d :=
            ⟨e1.symm, e2.symm, e3.symm⟩
          exact (List.any_eq_false.mp hany x hx)
            (by simp [hpx.1, hpx.2.1, hpx.2.2])
    | some rid =>
      cases hfind : s.records.find? (fun r => r.uuid = rid) with
      | none => simpa [saveAttendance, hfind] using hT
      | some r0 =>
        rcases find?_uuid_mem hfind with ⟨hr0mem, hr0uuid⟩
        simp only [saveAttendance, hfind]
        split
        · simpa using hT
        · simp only []
          unfold uniqueTriple at hT ⊢
          simp only [List.pairwise_map]
          refine (hT.and hU).imp_of_mem ?_
          intro a b ha hb hab
          rcases hab with ⟨hnt, hne⟩
          by_cases hau : a.uuid = rid
          · have hab0 : a = r0 :=
              eq_of_pairwise_key AttendanceRecord.uuid hU ha hr0mem
                (hau.trans hr0uuid.symm)
            have hbu : ¬ b.uuid = rid := fun hb' => hne (hau.trans hb'.symm)
            rw [if_pos hau, if_neg hbu]
            intro hsame
            subst hab0
            exact hnt hsame
          · by_cases hbu : b.uuid = rid
            · have hbb0 : b = r0 :=
                eq_of_pairwise_key AttendanceRecord.uuid hU hb hr0mem
                  (hbu.trans hr0uuid.symm)
              rw [if_neg hau, if_pos hbu]
              intro hsame
              subst hbb0
              exact hnt hsame
            · rw [if_neg hau, if_neg hbu]
              exact hnt

/-- Witness for C1: a second create for the (o1, l1, 2024-03-01) triple
against `demoStore` fails with `DuplicateRecordError` and leaves the store
(queue included) unchanged, and the uniqueness invariant still holds. -/
theorem saveAttendance_duplicate_guard_witness :
    saveAttendance "u2" "2024-03-01" "o1" "l1" [] none demoStore =
      (Except.error SaveError.duplicateRecord, demoStore)
    ∧ uniqueTriple (saveAttendance "u2" "2024-03-01" "o1" "l1" [] none demoStore).2 :=
  ⟨saveAttendance_duplicate_guard.1 demoStore "u2" "2024-03-01" "o1" "l1" []
      ⟨demoRecord, by decide, by decide, by decide, by decide⟩,
    saveAttendance_duplicate_guard.2 demoStore "u2" "2024-03-01" "o1" "l1" [] none
      (by decide) (by decide)⟩

lemma consistentLists_cons_append {records : List AttendanceRecord}
    {queue : List ChangeQueueEntry} {r : AttendanceRecord}
    {e : ChangeQueueEntry} (h : consistentLists records queue)
    (hop : r.operation_type ≠ none) (htab : e.table = attendanceTable)
    (hid : e.entityId = r.uuid) :
    consistentLists (r :: records) (queue ++ [e]) := by
  constructor
  · intro r' hr' hop'
    rcases List.mem_cons.mp hr' with rfl | hr'
    · exact ⟨e, by simp, htab, hid⟩
    · rcases h.1 r' hr' hop' with ⟨e', he', ht', hi'⟩
      exact ⟨e', by simp [he'], ht', hi'⟩
  · intro e' he' ht'
    rcases List.mem_append.mp he' with he' | he'
    · rcases h.2 e' he' ht' with ⟨r', hr', hu', ho'⟩
      exact ⟨r', List.mem_cons_of_mem _ hr', hu', ho'⟩
    · have he : e' = e := by simpa using he'
      subst he
      exact ⟨r, List.mem_cons_self _ _, hid.symm, hop⟩

lemma consistentLists_update {records : List AttendanceRecord}
    {queue : List ChangeQueueEntry} {rid : String} {r0 r : AttendanceRecord}
    {e : ChangeQueueEntry} (h : consistentLists records queue)
    (hfind : records.find? (fun x => x.uuid = rid) = some r0)
    (hruuid : r.uuid = rid) (hop : r.operation_type ≠ none)
    (htab : e.table = attendanceTable) (hid : e.entityId = rid) :
    consistentLists (records.map (fun x => if x.uuid = rid then r else x))
      (queue ++ [e]) := by
  obtain ⟨hr0mem, hr0uuid⟩ := find?_uuid_mem hfind
  constructor
  · intro y hy hopy
    rcases List.mem_map.mp hy with ⟨x, hx, rfl⟩
    by_cases hxu : x.uuid = rid
    · rw [if_pos hxu]
      exact ⟨e, by simp, htab, by rw [hid, hruuid]⟩
    · rw [if_neg hxu] at hopy ⊢
      rcases h.1 x hx hopy with ⟨e', he', ht', hi'⟩
      exact ⟨e', by simp [he'], ht', hi'⟩
  · intro e' he' ht'
    rcases List.mem_append.mp he' with he' | he'
    · rcases h.2 e' he' ht' with ⟨x, hx, hxu, hxop⟩
      by_cases hxr : x.uuid = rid
      · refine ⟨r, List.mem_map.mpr ⟨x, hx, by rw [if_pos hxr]⟩, ?_, hop⟩
        rw [hruuid, ← hxr, hxu]
      · exact ⟨x, List.mem_map.mpr ⟨x, hx, by rw [if_neg hxr]⟩, hxu, hxop⟩
    · have he : e' = e := by simpa using he'
      subst he
      refine ⟨r, List.mem_map.mpr ⟨r0, hr0mem, by rw [if_pos hr0uuid]⟩, ?_, hop⟩
      rw [hruuid, hid]

lemma consistentLists_physdel {records : List AttendanceRecord}
    {queue : List ChangeQueueEntry} {id : String}
    (h : consistentLists records queue) :
    consistentLists (records.filter (fun x => x.uuid ≠ id))
      (queue.filter (fun e => ¬(e.table = attendanceTable ∧ e.entityId = id))) := by
  constructor
  · intro r' hr' hop'
    rw [List.mem_filter] at hr'
    obtain ⟨hr', hne⟩ := hr'
    have hne' : r'.uuid ≠ id := by simpa using hne
    rcases h.1 r' hr' hop' with ⟨e', he', ht', hi'⟩
    refine ⟨e', List.mem_filter.mpr ⟨he', ?_⟩, ht', hi'⟩
    simp [hi', hne']
  · intro e' he' ht'
    rw [List.mem_filter] at he'
    obtain ⟨he', hcond⟩ := he'
    have hne : e'.entityId ≠ id := by
      intro hcontra
      simp [ht', hcontra] at hcond
    rcases h.2 e' he' ht' with ⟨x, hx, hxu, hxop⟩
    refine ⟨x, List.mem_filter.mpr ⟨hx, ?_⟩, hxu, hxop⟩
    simp [hxu, hne]

/-- Claim C2: every local mutation (`saveAttendance`, `deleteAttendanceRecord`)
executes the Record Store write and its Change Queue append as one atomic
unit — on any failure (duplicate, not-found, or `StorageFullError` on the
append) the store is returned unchanged, i.e. the attempted Record Store
mutation is rolled back — and consequently the set of records carrying a
non-null `operation_type` and the set of queued attendance entries never
diverge: `storeQueueConsistent` is preserved by every operation, successful
or failed. -/
theorem atomic_write_unit :
    ∀ (s : Store) (u d o l : String) (sts : List StudentStatusInput)
      (eid : Option String) (id : String),
      storeQueueConsistent s →
      ((∀ res s', saveAttendance u d o l sts eid s = (res, s') →
          (∀ err, res = Except.error err → s' = s) ∧ storeQueueConsistent s')
        ∧ (∀ res s', deleteAttendanceRecord id s = (res, s') →
          (∀ err, res = Except.error err → s' = s) ∧ storeQueueConsistent s')) := by
  intro s u d o l sts eid id hcons
  constructor
  · intro res s' heq
    cases eid with
    | none =>
      simp only [saveAttendance] at heq
      split at heq
      · injection heq with h1 h2
        subst h1; subst h2
        exact ⟨fun _ _ => rfl, hcons⟩
      · split at heq
        next happ =>
          injection heq with h1 h2
          subst h1; subst h2
          exact ⟨fun _ _ => rfl, hcons⟩
        next q happ =>
          injection heq with h1 h2
          subst h1; subst h2
          refine ⟨fun err h => Except.noConfusion h, ?_⟩
          have hq := appendEntry_some happ
          subst hq
          exact consistentLists_cons_append hcons (by simp) rfl rfl
    | some rid =>
      simp only [saveAttendance] at heq
      split at heq
      next hfind =>
        injection heq with h1 h2
        subst h1; subst h2
        exact ⟨fun _ _ => rfl, hcons⟩
      next r0 hfind =>
        split at heq
        next happ =>
          injection heq with h1 h2
          subst h1; subst h2
          exact ⟨fun _ _ => rfl, hcons⟩
        next q happ =>
          injection heq with h1 h2
          subst h1; subst h2
          refine ⟨fun err h => Except.noConfusion h, ?_⟩
          have hq := appendEntry_some happ
          subst hq
          exact consistentLists_update hcons hfind (find?_uuid_mem hfind).2
            (by simp) rfl (find?_uuid_mem hfind).2
  · intro res s' heq
    simp only [deleteAttendanceRecord] at heq
    split at heq
    next hfind =>
      injection heq with h1 h2
      subst h1; subst h2
      exact ⟨fun _ _ => rfl, hcons⟩
    next r0 hfind =>
      split at heq
      next hcr =>
        injection heq with h1 h2
        subst h1; subst h2
        refine ⟨fun err h => Except.noConfusion h, ?_⟩
        exact consistentLists_physdel hcons
      next hcr =>
        split at heq
        next happ =>
          injection heq with h1 h2
          subst h1; subst h2
          exact ⟨fun _ _ => rfl, hcons⟩
        next q happ =>
          injection heq with h1 h2
          subst h1; subst h2
          refine ⟨fun err h => Except.noConfusion h, ?_⟩
          have hq := appendEntry_some happ
          subst hq
          exact consistentLists_update hcons hfind (find?_uuid_mem hfind).2
            (by simp) rfl (find?_uuid_mem hfind).2

/-- Witness for C2: the save of a fresh record and the delete of the synced
record r1 both leave `demoStore` in a consistent records-vs-queue state. -/
theorem atomic_write_unit_witness :
    storeQueueConsistent
      (saveAttendance "u9" "2024-04-01" "o1" "l1" [] none demoStore).2
    ∧ storeQueueConsistent (deleteAttendanceRecord "r1" demoStore).2 :=
  ⟨((atomic_write_unit demoStore "u9" "2024-04-01" "o1" "l1" [] none "r1"
        (by decide)).1
      (saveAttendance "u9" "2024-04-01" "o1" "l1" [] none demoStore).1
      (saveAttendance "u9" "2024-04-01" "o1" "l1" [] none demoStore).2 rfl).2,
    ((atomic_write_unit demoStore "u9" "2024-04-01" "o1" "l1" [] none "r1"
        (by decide)).2
      (deleteAttendanceRecord "r1" demoStore).1
      (deleteAttendanceRecord "r1" demoStore).2 rfl).2⟩

lemma processedSeqs_initialSegment (push : ChangeQueueEntry → PushResult) :
    ∀ (entries : List ChangeQueueEntry) (s : Store),
      ∃ k, (processEntries push entries s).processedSeqs =
        (entries.take k).map ChangeQueueEntry.seq := by
  intro entries
  induction entries with
  | nil => exact fun s => ⟨0, rfl⟩
  | cons e rest ih =>
    intro s
    cases hp : push e with
    | ack =>
      obtain ⟨k, hk⟩ := ih (applyAck e s)
      exact ⟨k + 1, by simp [processEntries, hp, hk]⟩
    | conflict srv =>
      obtain ⟨k, hk⟩ := ih (applyConflict e srv s)
      exact ⟨k + 1, by simp [processEntries, hp, hk]⟩
    | transient =>
      exact ⟨0, by simp [processEntries, hp]⟩

lemma processed_downward (push : ChangeQueueEntry → PushResult) :
    ∀ (entries : List ChangeQueueEntry) (s : Store),
      entries.Pairwise (fun a b => a.seq < b.seq) →
      ∀ e1 ∈ entries, ∀ e2 ∈ entries, e1.seq < e2.seq →
        e2.seq ∈ (processEntries push entries s).processedSeqs →
        e1.seq ∈ (processEntries push entries s).processedSeqs := by
  intro entries
  induction entries with
  | nil => intro s _ e1 h1; cases h1
  | cons e rest ih =>
    intro s hpw e1 h1 e2 h2 hlt hmem
    rcases List.pairwise_cons.mp hpw with ⟨hhead, htail⟩
    cases hp : push e with
    | transient => simp [processEntries, hp] at hmem
    | ack =>
      simp only [processEntries, hp, List.mem_cons] at hmem ⊢
      rcases hmem with hmemeq | hmem'
      · rcases List.mem_cons.mp h2 with rfl | h2'
        · rcases List.mem_cons.mp h1 with rfl | h1'
          · exact absurd hlt (lt_irrefl _)
          · exact absurd (hlt.trans (hhead e1 h1')) (lt_irrefl _)
        · exact absurd (hmemeq ▸ hhead e2 h2') (lt_irrefl _)
      · rcases List.mem_cons.mp h1 with rfl | h1'
        · exact Or.inl rfl
        · rcases List.mem_cons.mp h2 with rfl | h2'
          · exact absurd (hlt.trans (hhead e1 h1')) (lt_irrefl _)
          · exact Or.inr (ih (applyAck e s) htail e1 h1' e2 h2' hlt hmem')
    | conflict srv =>
      simp only [processEntries, hp, List.mem_cons] at hmem ⊢
      rcases hmem with hmemeq | hmem'
      · rcases List.mem_cons.mp h2 with rfl | h2'
        · rcases List.mem_cons.mp h1 with rfl | h1'
          · exact absurd hlt (lt_irrefl _)
          · exact absurd (hlt.trans (hhead e1 h1')) (lt_irrefl _)
        · exact absurd (hmemeq ▸ hhead e2 h2') (lt_irrefl _)
      · rcases List.mem_cons.mp h1 with rfl | h1'
        · exact Or.inl rfl
        · rcases List.mem_cons.mp h2 with rfl | h2'
          · exact absurd (hlt.trans (hhead e1 h1')) (lt_irrefl _)
          · exact Or.inr (ih (applyConflict e srv s) htail e1 h1' e2 h2' hlt hmem')

/-- Claim C3: a sync run pushes queued entries in creation (sequence-number)
order: the processed sequence numbers always form a prefix of the oldest-first
entry list, they are strictly increasing whenever the queue is in creation
order, processing never advances past an earlier unacknowledged entry (a
later entry is processed only if every earlier one was), and in particular an
`update` entry is never pushed before an earlier unacknowledged `create` for
the same entity identifier. -/
theorem sync_replays_in_creation_order :
    ∀ (push : ChangeQueueEntry → PushResult) (entries : List ChangeQueueEntry)
      (s : Store),
      (∃ k, (processEntries push entries s).processedSeqs =
        (entries.take k).map ChangeQueueEntry.seq)
      ∧ (entries.Pairwise (fun a b => a.seq < b.seq) →
          ((processEntries push entries s).processedSeqs.Pairwise (· < ·)
          ∧ (∀ e1 ∈ entries, ∀ e2 ∈ entries, e1.seq < e2.seq →
              e2.seq ∈ (processEntries push entries s).processedSeqs →
              e1.seq ∈ (processEntries push entries s).processedSeqs)
          ∧ (∀ e1 ∈ entries, ∀ e2 ∈ entries, e1.entityId = e2.entityId →
              e1.op = OpType.create → e2.op = OpType.update → e1.seq < e2.seq →
              e2.seq ∈ (processEntries push entries s).processedSeqs →
              e1.seq ∈ (processEntries push entries s).processedSeqs))) := by
  intro push entries s
  refine ⟨processedSeqs_initialSegment push entries s, ?_⟩
  intro hpw
  refine ⟨?_, processed_downward push entries s hpw, ?_⟩
  · obtain ⟨k, hk⟩ := processedSeqs_initialSegment push entries s
    rw [hk]
    exact List.pairwise_map.mpr (List.Pairwise.sublist (List.take_sublist k entries) hpw)
  · intro e1 h1 e2 h2 _ _ _ hlt hmem
    exact processed_downward push entries s hpw e1 h1 e2 h2 hlt hmem

/-- Witness for C3 on the singleton queue of `demoStoreQueued` under an
always-acknowledging remote. -/
theorem sync_replays_in_creation_order_witness :
    (processEntries (fun _ => PushResult.ack) [demoEntry]
        demoStoreQueued).processedSeqs.Pairwise (· < ·) :=
  ((sync_replays_in_creation_order (fun _ => PushResult.ack)
    [demoEntry] demoStoreQueued).2 (by decide)).1

lemma conflict_notice_reported (push : ChangeQueueEntry → PushResult) :
    ∀ (entries : List ChangeQueueEntry) (s : Store),
      entries.Pairwise (fun a b => a.seq < b.seq) →
      ∀ e ∈ entries, ∀ srv, push e = PushResult.conflict srv →
        e.seq ∈ (processEntries push entries s).processedSeqs →
        discardNotice e ∈ (processEntries push entries s).notices := by
  intro entries
  induction entries with
  | nil => intro s _ e he; cases he
  | cons e0 rest ih =>
    intro s hpw e he srv hpush hmem
    rcases List.pairwise_cons.mp hpw with ⟨hhead, htail⟩
    rcases List.mem_cons.mp he with rfl | he'
    · cases hp : push e with
      | ack => rw [hp] at hpush; cases hpush
      | transient => rw [hp] at hpush; cases hpush
      | conflict srv0 =>
        simp [processEntries, hp]
    · cases hp : push e0 with
      | transient => simp [processEntries, hp] at hmem
      | ack =>
        simp only [processEntries, hp, List.mem_cons] at hmem ⊢
        rcases hmem with hmemeq | hmem'
        · exact absurd (hmemeq ▸ hhead e he') (lt_irrefl _)
        · exact ih (applyAck e0 s) htail e he' srv hpush hmem'
      | conflict srv0 =>
        simp only [processEntries, hp, List.mem_cons] at hmem ⊢
        rcases hmem with hmemeq | hmem'
        · exact absurd (hmemeq ▸ hhead e he') (lt_irrefl _)
        · exact Or.inr (ih (applyConflict e0 srv0 s) htail e he' srv hpush hmem')

/-- Claim C5: a push rejected as a genuine conflict discards the local queue
entry (it is acknowledged away), overwrites local state with the server's
version (last-writer-wins, the server record stored fully synchronized), and
the discard is surfaced in the run's reported message — every conflicted
entry that a run processes contributes its discard notice to the outcome
returned by `syncEntity`, never a silent drop. -/
theorem conflict_lww_reported :
    (∀ (e : ChangeQueueEntry) (srv : ServerRecord) (s : Store),
        (applyConflict e srv s).queue = s.queue.filter (fun x => x.seq ≠ e.seq)
        ∧ (applyConflict e srv s).records.find?
            (fun r => r.uuid = srv.record.uuid) = some (serverVersion srv))
    ∧ (∀ (push : ChangeQueueEntry → PushResult)
        (entries : List ChangeQueueEntry) (s : Store),
        entries.Pairwise (fun a b => a.seq < b.seq) →
        ∀ e ∈ entries, ∀ srv, push e = PushResult.conflict srv →
          e.seq ∈ (processEntries push entries s).processedSeqs →
          discardNotice e ∈ (processEntries push entries s).notices)
    ∧ (∀ (push : ChangeQueueEntry → PushResult) (mgr : SyncManager)
        (entityType : String) (s : Store), entityType ∉ mgr.running →
        (syncEntity push mgr entityType s).1.message =
          (processEntries push (entriesForRun entityType s) s).notices) := by
  refine ⟨?_, conflict_notice_reported, ?_⟩
  · intro e srv s
    constructor
    · rfl
    · show List.find? _ (serverVersion srv :: _) = _
      rw [List.find?_cons_of_pos]
      simp [serverVersion]
  · intro push mgr entityType s h
    simp [syncEntity, h]

/-- Witness for C5: a remote that rejects `demoEntry` as a conflict carrying
`demoRecord` as the server version; the discard notice appears in the run's
notices, the entry leaves the queue, and the server version lands locally. -/
theorem conflict_lww_reported_witness :
    ((applyConflict demoEntry { record := demoRecord, entries := [] }
        demoStoreQueued).queue =
      demoStoreQueued.queue.filter (fun x => x.seq ≠ demoEntry.seq)
    ∧ (applyConflict demoEntry { record := demoRecord, entries := [] }
        demoStoreQueued).records.find? (fun r => r.uuid = demoRecord.uuid) =
      some (serverVersion { record := demoRecord, entries := [] }))
    ∧ discardNotice demoEntry ∈
      (processEntries
        (fun _ => PushResult.conflict { record := demoRecord, entries := [] })
        [demoEntry] demoStoreQueued).notices := by
  refine ⟨conflict_lww_reported.1 demoEntry
      { record := demoRecord, entries := [] } demoStoreQueued, ?_⟩
  refine conflict_lww_reported.2.1
    (fun _ => PushResult.conflict { record := demoRecord, entries := [] })
    [demoEntry] demoStoreQueued (by decide) demoEntry (by decide)
    { record := demoRecord, entries := [] } rfl ?_
  decide

/-- Claim C6: deleting a record whose `create` is still unacknowledged
removes every pending queue entry for it and physically deletes the record,
appending no delete entry (the resulting queue is a subset of the old one, so
no network interaction is recorded); deleting an already-synced record
instead soft-deletes it (`operation_type = delete`), appends exactly one
delete ChangeQueueEntry, and excludes the record from subsequent
`getAllAttendanceRecords` results. -/
theorem deleteAttendanceRecord_modes :
    ∀ (s : Store) (id : String) (r0 : AttendanceRecord),
      s.records.find? (fun r => r.uuid = id) = some r0 →
      ((r0.operation_type = some OpType.create →
          (deleteAttendanceRecord id s).1 = Except.ok ()
          ∧ (∀ e ∈ (deleteAttendanceRecord id s).2.queue,
              ¬(e.table = attendanceTable ∧ e.entityId = id))
          ∧ (∀ r ∈ (deleteAttendanceRecord id s).2.records, r.uuid ≠ id)
          ∧ (∀ e ∈ (deleteAttendanceRecord id s).2.queue, e ∈ s.queue))
      ∧ (r0.operation_type = none → s.queue.length < s.capacity →
          (deleteAttendanceRecord id s).1 = Except.ok ()
          ∧ (deleteAttendanceRecord id s).2.queue =
              s.queue ++ [mkQueueEntry s OpType.delete
                { r0 with operation_type := some OpType.delete } []]
          ∧ (∃ r ∈ (deleteAttendanceRecord id s).2.records,
              r.uuid = id ∧ r.operation_type = some OpType.delete)
          ∧ (∀ r ∈ getAllAttendanceRecords (deleteAttendanceRecord id s).2,
              r.uuid ≠ id))) := by
  intro s id r0 hfind
  constructor
  · intro hcr
    have hd : deleteAttendanceRecord id s =
        (Except.ok (),
          { s with
              records := s.records.filter (fun r => r.uuid ≠ id),
              studentEntries :=
                s.studentEntries.filter (fun x => x.record_uuid ≠ id),
              queue := s.queue.filter (fun e =>
                ¬(e.table = attendanceTable ∧ e.entityId = id)) }) := by
      simp [deleteAttendanceRecord, hfind, hcr]
    rw [hd]
    refine ⟨rfl, ?_, ?_, ?_⟩
    · intro e he
      simp only [List.mem_filter] at he
      exact of_decide_eq_true he.2
    · intro r hr
      simp only [List.mem_filter] at hr
      exact of_decide_eq_true hr.2
    · intro e he
      simp only [List.mem_filter] at he
      exact he.1
  · intro hnone hcap
    have hne : ¬(r0.operation_type = some OpType.create) := by
      rw [hnone]; simp
    have happ := appendEntry_of_lt
      (e := mkQueueEntry s OpType.delete
        { r0 with operation_type := some OpType.delete } []) hcap
    have hd : deleteAttendanceRecord id s =
        (Except.ok (),
          { s with
              records := s.records.map (fun x =>
                if x.uuid = id
                then { r0 with operation_type := some OpType.delete } else x),
              queue := s.queue ++ [mkQueueEntry s OpType.delete
                { r0 with operation_type := some OpType.delete } []],
              nextSeq := s.nextSeq + 1 }) := by
      simp [deleteAttendanceRecord, hfind, hne, happ]
    obtain ⟨hr0mem, hr0uuid⟩ := find?_uuid_mem hfind
    rw [hd]
    refine ⟨rfl, rfl, ?_, ?_⟩
    · refine ⟨{ r0 with operation_type := some OpType.delete },
        List.mem_map.mpr ⟨r0, hr0mem, by rw [if_pos hr0uuid]⟩, hr0uuid, rfl⟩
    · intro r hr heq
      unfold getAllAttendanceRecords at hr
      rw [mem_sortByDateDesc] at hr
      simp only [List.mem_filter] at hr
      obtain ⟨hr, hop⟩ := hr
      rcases List.mem_map.mp hr with ⟨x, hx, rfl⟩
      by_cases hxu : x.uuid = id
      · rw [if_pos hxu] at hop
        simp at hop
      · rw [if_neg hxu] at heq
        exact hxu heq

/-- A concrete store whose only record is an unsynced creation with its
pending `create` entry still queued. -/
def demoStoreCreate : Store :=
  { records := [{ demoRecord with operation_type := some OpType.create }],
    studentEntries := [],
    queue := [{ demoEntry with seq := 0, op := OpType.create, createdAt := 0 }],
    nextSeq := 1, capacity := 10,
    offices := [{ uuid := "o1", name := "Office One" }],
    levels := [{ uuid := "l1", name := "Level One" }] }

/-- Witness for C6: deleting the unsynced creation in `demoStoreCreate`
succeeds without appending anything, and deleting the synced record of
`demoStore` appends exactly the delete entry and soft-deletes the record. -/
theorem deleteAttendanceRecord_modes_witness :
    (deleteAttendanceRecord "r1" demoStoreCreate).1 = Except.ok ()
    ∧ (deleteAttendanceRecord "r1" demoStore).1 = Except.ok ()
    ∧ (deleteAttendanceRecord "r1" demoStore).2.queue =
        demoStore.queue ++ [mkQueueEntry demoStore OpType.delete
          { demoRecord with operation_type := some OpType.delete } []] := by
  have h1 := (deleteAttendanceRecord_modes demoStoreCreate "r1"
    { demoRecord with operation_type := some OpType.create } (by decide)).1 rfl
  have h2 := (deleteAttendanceRecord_modes demoStore "r1" demoRecord
    (by decide)).2 rfl (by decide)
  exact ⟨h1.1, h2.1, h2.2.1⟩

/-- Claim C7: saving a fresh attendance record (new UUID, no record yet for
the (office, level, date) triple, storage available) succeeds, and
`getStudentAttendanceForRecord` on the returned id yields exactly the saved
student-to-status mapping — one entry per submitted student in order, nothing
more and nothing less. -/
theorem save_get_roundtrip :
    ∀ (s : Store) (newUuid d o l : String) (sts : List StudentStatusInput),
      (s.records.any (fun r =>
        r.office_uuid = o && r.level_uuid = l && r.date = d)) = false →
      (∀ x ∈ s.studentEntries, x.record_uuid ≠ newUuid) →
      s.queue.length < s.capacity →
      (saveAttendance newUuid d o l sts none s).1 = Except.ok newUuid
      ∧ getStudentAttendanceForRecord newUuid
          (saveAttendance newUuid d o l sts none s).2 = mkEntries newUuid sts := by
  intro s newUuid d o l sts hany hfresh hcap
  have happ := appendEntry_of_lt
    (e := mkQueueEntry s OpType.create
      { uuid := newUuid, date := d, office_uuid := o, level_uuid := l,
        office_name := officeNameOf s o, level_name := levelNameOf s l,
        operation_type := some OpType.create }
      (mkEntries newUuid sts)) hcap
  have hd : saveAttendance newUuid d o l sts none s =
      (Except.ok newUuid,
        { s with
            records :=
              { uuid := newUuid, date := d, office_uuid := o, level_uuid := l,
                office_name := officeNameOf s o, level_name := levelNameOf s l,
                operation_type := some OpType.create } :: s.records,
            studentEntries := s.studentEntries ++ mkEntries newUuid sts,
            queue := s.queue ++ [mkQueueEntry s OpType.create
              { uuid := newUuid, date := d, office_uuid := o, level_uuid := l,
                office_name := officeNameOf s o, level_name := levelNameOf s l,
                operation_type := some OpType.create }
              (mkEntries newUuid sts)],
            nextSeq := s.nextSeq + 1 }) := by
    simp [saveAttendance, hany, happ]
  rw [hd]
  refine ⟨rfl, ?_⟩
  unfold getStudentAttendanceForRecord
  have h1 : s.studentEntries.filter (fun x => x.record_uuid = newUuid) = [] := by
    rw [List.filter_eq_nil_iff]
    intro x hx
    simpa using hfresh x hx
  have h2 : (mkEntries newUuid sts).filter
      (fun x => x.record_uuid = newUuid) = mkEntries newUuid sts := by
    apply List.filter_eq_self.mpr
    intro a ha
    rcases List.mem_map.mp ha with ⟨p, hp, rfl⟩
    simp
  show (s.studentEntries ++ mkEntries newUuid sts).filter
    (fun x => x.record_uuid = newUuid) = mkEntries newUuid sts
  rw [List.filter_append, h1, h2, List.nil_append]

/-- The spec's round-trip example payload: s1 present, s2 absent. -/
def demoStatuses : List StudentStatusInput :=
  [{ studentUuid := "s1", status := AttendanceStatus.present },
    { studentUuid := "s2", status := AttendanceStatus.absent }]

/-- Witness for C7: saving a fresh record for 2024-05-01 in `demoStore` and
reading it back yields exactly the saved mapping. -/
theorem save_get_roundtrip_witness :
    (saveAttendance "u7" "2024-05-01" "o1" "l1" demoStatuses none
      demoStore).1 = Except.ok "u7"
    ∧ getStudentAttendanceForRecord "u7"
        (saveAttendance "u7" "2024-05-01" "o1" "l1" demoStatuses none
          demoStore).2 = mkEntries "u7" demoStatuses :=
  save_get_roundtrip demoStore "u7" "2024-05-01" "o1" "l1" demoStatuses
    (by decide) (by decide) (by decide)

/-- One assignment step of the `forEach` building `studentAttendanceStatus`
(form.tsx lines 104–106). -/
def statusStep (m : String → Option AttendanceStatus)
    (e : StudentAttendanceEntry) : String → Option AttendanceStatus :=
  fun k => if k = e.student_uuid then some e.status else m k

lemma buildStatusMap_eq_foldl (statuses : List StudentAttendanceEntry) :
    buildStatusMap statuses = statuses.foldl statusStep (fun _ => none) := rfl

lemma statusFold_none :
    ∀ (statuses : List StudentAttendanceEntry)
      (init : String → Option AttendanceStatus) (k : String),
      (∀ e ∈ statuses, e.student_uuid ≠ k) →
      (statuses.foldl statusStep init) k = init k := by
  intro statuses
  induction statuses with
  | nil => intro init k _; rfl
  | cons a rest ih =>
    intro init k h
    rw [List.foldl_cons,
      ih (statusStep init a) k (fun e he => h e (List.mem_cons_of_mem _ he))]
    have ha : a.student_uuid ≠ k := h a (List.mem_cons_self _ _)
    have hk : ¬ (k = a.student_uuid) := fun hk => ha hk.symm
    simp [statusStep, hk]

lemma statusFold_stable :
    ∀ (statuses : List StudentAttendanceEntry)
      (init : String → Option AttendanceStatus) (k : String)
      (v : AttendanceStatus),
      (∀ e ∈ statuses, e.student_uuid = k → e.status = v) →
      init k = some v →
      (statuses.foldl statusStep init) k = some v := by
  intro statuses
  induction statuses with
  | nil => intro init k v _ hinit; exact hinit
  | cons a rest ih =>
    intro init k v h hinit
    rw [List.foldl_cons]
    refine ih (statusStep init a) k v
      (fun e he hk => h e (List.mem_cons_of_mem _ he) hk) ?_
    unfold statusStep
    by_cases hk : k = a.student_uuid
    · rw [if_pos hk, h a (List.mem_cons_self _ _) hk.symm]
    · rw [if_neg hk]
      exact hinit

lemma statusFold_found :
    ∀ (statuses : List StudentAttendanceEntry)
      (init : String → Option AttendanceStatus)
      (e : StudentAttendanceEntry) (k : String),
      e ∈ statuses → e.student_uuid = k →
      (∀ e2 ∈ statuses, e2.student_uuid = k → e2 = e) →
      (statuses.foldl statusStep init) k = some e.status := by
  intro statuses
  induction statuses with
  | nil => intro init e k he; cases he
  | cons a rest ih =>
    intro init e k he hk huniq
    rw [List.foldl_cons]
    rcases List.mem_cons.mp he with rfl | he'
    · refine statusFold_stable rest (statusStep init e) k e.status
        (fun e2 he2 hk2 =>
          by rw [huniq e2 (List.mem_cons_of_mem _ he2) hk2]) ?_
      unfold statusStep
      rw [if_pos hk.symm]
    · exact ih (statusStep init a) e k he' hk
        (fun e2 he2 hk2 => huniq e2 (List.mem_cons_of_mem _ he2) hk2)

lemma studentsWithAttendance_mem (isEditMode : Bool)
    (statuses : List StudentAttendanceEntry) (fetchedStudents : List Student)
    (st : Student) (hst : st ∈ fetchedStudents) :
    ({ student := st, attendanceStatus :=
        ((if isEditMode then buildStatusMap statuses else fun _ => none)
          st.uuid).getD AttendanceStatus.absent } : StudentWithAttendance)
      ∈ studentsWithAttendance isEditMode statuses fetchedStudents := by
  unfold studentsWithAttendance
  exact List.mem_map.mpr ⟨st, hst, rfl⟩

/-- Claim C9: when the form loads the roster, every student with no stored
StudentAttendanceEntry for the record being edited — including every student
when not in edit mode, where stored statuses are never read — is shown with
initial status `absent`, and every student whose stored entry exists (unique
per student) is shown that stored status. -/
theorem roster_status_defaults :
    ∀ (isEditMode : Bool) (statuses : List StudentAttendanceEntry)
      (fetchedStudents : List Student) (st : Student),
      st ∈ fetchedStudents →
      ((isEditMode = false ∨ (∀ e ∈ statuses, e.student_uuid ≠ st.uuid)) →
        ({ student := st, attendanceStatus := AttendanceStatus.absent } :
          StudentWithAttendance)
          ∈ studentsWithAttendance isEditMode statuses fetchedStudents)
      ∧ (∀ e ∈ statuses, isEditMode = true → e.student_uuid = st.uuid →
          (∀ e2 ∈ statuses, e2.student_uuid = st.uuid → e2 = e) →
          ({ student := st, attendanceStatus := e.status } :
            StudentWithAttendance)
            ∈ studentsWithAttendance isEditMode statuses fetchedStudents) := by
  intro isEditMode statuses fetchedStudents st hst
  constructor
  · intro h
    have hm : (if isEditMode then buildStatusMap statuses
        else fun _ => none) st.uuid = none := by
      rcases h with h | h
      · rw [h]
        simp
      · cases isEditMode with
        | false => rfl
        | true =>
          rw [if_pos rfl, buildStatusMap_eq_foldl]
          exact statusFold_none statuses _ st.uuid h
    have hmem := studentsWithAttendance_mem isEditMode statuses
      fetchedStudents st hst
    rw [hm] at hmem
    exact hmem
  · intro e he hedit hk huniq
    have hm : (if isEditMode then buildStatusMap statuses
        else fun _ => none) st.uuid = some e.status := by
      rw [hedit, if_pos rfl, buildStatusMap_eq_foldl]
      exact statusFold_found statuses _ e st.uuid he hk huniq
    have hmem := studentsWithAttendance_mem isEditMode statuses
      fetchedStudents st hst
    rw [hm] at hmem
    exact hmem

/-- A demo student matching `demoRecord`'s office and level. -/
def demoStudent : Student :=
  { uuid := "s1", name := "Student One",
    office_name := "Office One", level_name := "Level One" }

/-- Witness for C9: in create mode s1 defaults to `absent`; in edit mode the
stored `present` entry for s1 is shown. -/
theorem roster_status_defaults_witness :
    ({ student := demoStudent, attendanceStatus := AttendanceStatus.absent } :
      StudentWithAttendance)
      ∈ studentsWithAttendance false [] [demoStudent]
    ∧ ({ student := demoStudent,
          attendanceStatus := AttendanceStatus.present } : StudentWithAttendance)
      ∈ studentsWithAttendance true
        [{ record_uuid := "r1", student_uuid := "s1",
            status := AttendanceStatus.present }] [demoStudent] := by
  refine ⟨(roster_status_defaults false [] [demoStudent] demoStudent
      (by decide)).1 (Or.inl rfl), ?_⟩
  exact (roster_status_defaults true
      [{ record_uuid := "r1", student_uuid := "s1",
          status := AttendanceStatus.present }] [demoStudent] demoStudent
      (by decide)).2
    { record_uuid := "r1", student_uuid := "s1",
      status := AttendanceStatus.present } (by decide) rfl (by decide)
    (by decide)

/-- Claim C10: `handleSaveAttendance` reaches the `saveAttendance` call if
and only if an office, a level and a date are all selected (truthy) and the
loaded student list is non-empty; when any precondition fails, the outcome is
the corresponding alert (`alertMissingSelection` or `alertNoStudents`) and
the store — Record Store and Change Queue — is returned unchanged. -/
theorem handleSave_guard :
    ∀ (push : ChangeQueueEntry → PushResult) (mgr : SyncManager)
      (isConnected : Bool) (newUuid : String) (so sl : Option String)
      (sd : String) (students : List StudentWithAttendance)
      (isEditMode : Bool) (recUuid : Option String) (s : Store),
      (((handleSaveAttendance push mgr isConnected newUuid so sl sd students
            isEditMode recUuid s).1 = SaveOutcomeUI.alertMissingSelection
          ∨ (handleSaveAttendance push mgr isConnected newUuid so sl sd
            students isEditMode recUuid s).1 = SaveOutcomeUI.alertNoStudents)
        ↔ ¬(jsTruthyStr so = true ∧ jsTruthyStr sl = true ∧ sd ≠ ""
            ∧ students ≠ []))
      ∧ (((handleSaveAttendance push mgr isConnected newUuid so sl sd students
            isEditMode recUuid s).1 = SaveOutcomeUI.alertMissingSelection
          ∨ (handleSaveAttendance push mgr isConnected newUuid so sl sd
            students isEditMode recUuid s).1 = SaveOutcomeUI.alertNoStudents) →
          (handleSaveAttendance push mgr isConnected newUuid so sl sd students
            isEditMode recUuid s).2 = s) := by
  intro push mgr isConnected newUuid so sl sd students isEditMode recUuid s
  cases hso : jsTruthyStr so <;> cases hsl : jsTruthyStr sl <;>
    by_cases hsd : sd = "" <;> by_cases hstu : students = [] <;>
      simp only [handleSaveAttendance, hso, hsl, hsd, hstu, Bool.not_true,
        Bool.not_false, Bool.true_or, Bool.or_true, Bool.false_or,
        Bool.or_false, decide_True, decide_False, if_true, if_false,
        List.length_eq_zero, List.length_nil, ne_eq, not_true, not_false_iff,
        not_and, and_imp, if_pos, ite_true, ite_false] <;>
      try simp_all
  all_goals (split <;> simp_all)

/-- Witness for C10: with no office selected, the call alerts and returns
`demoStore` untouched. -/
theorem handleSave_guard_witness :
    (handleSaveAttendance (fun _ => PushResult.ack) { running := [] } false
      "u1" none (some "l1") "2024-03-01" [] false none demoStore).2 =
      demoStore :=
  (handleSave_guard (fun _ => PushResult.ack) { running := [] } false "u1"
      none (some "l1") "2024-03-01" [] false none demoStore).2
    (Or.inl rfl)

end Expo33
